import Mathlib

/-!
Verification of the leetcode_database embeddings pipeline and summary retry
coordinator against their natural-language specification.

The definitions below are a shallow embedding of the Python source:

* `src/embeddings/mongo_operations.py` — the batch-lifecycle store queries
  (`get_chunks_without_batches`, `get_incomplete_batch_ids`,
  `update_batch_metadata_status`, `mark_batch_as_processed`).
* `src/embeddings/openai_operations.py` — the poll wrappers
  (`poll_file_status`, `poll_batch_status`), whose `try/except` bodies map a
  raised poll error to the status string "error".
* `src/embeddings/stages/*.py` — the per-item state machines of the polling
  and upload stages, and the generic worker loop of `base_stage.py`.
* `src/embeddings/pipeline.py` — `add_stage`, `enqueue`, `trigger_shutdown`,
  `shutdown`.
* `src/summarize/retry_failed_batches.py` — failed-batch grouping,
  `combine_input_files_to_nano`, `create_combined_retry_batch`.

MongoDB collections are modelled as Lean lists of documents; the remote
OpenAI client and the database bulk-write effect are modelled as explicit
oracle arguments (`Option`/`Except` results), so that raised exceptions and
silent partial writes are expressible.  Timestamps are modelled as Booleans
recording whether the corresponding field was set.
-/

namespace LeetcodeDB

/-! ## Data model: embeddings side (src/embeddings) -/

/-- A document of the `chunks` collection, projected to the fields used by
`get_chunks_without_batches` (`qid`, `chunk_id`, `text`). -/
structure ChunkDoc where
  qid : Nat
  chunk_id : Nat
  text : String
deriving DecidableEq, Repr

/-- A document of the `embeddings_batch_metadata` collection
(src/embeddings/mongo_operations.py).  `completed_at_set` models whether the
`completed_at` timestamp field holds a datetime (`true`) or `None`/absent. -/
structure EmbBatchMeta where
  batch_id : String
  openai_file_id : String
  status : String
  chunk_ids : List (Nat × Nat)
  processed : Bool
  result_file_id : Option String
  completed_at_set : Bool
deriving DecidableEq, Repr

/-- Mongo `update_one` semantics: update the first document matching the
filter, leave the rest unchanged. -/
def updateFirst (p : α → Bool) (f : α → α) : List α → List α
  | [] => []
  | x :: xs => if p x then f x :: xs else x :: updateFirst p f xs

/-- Embedding of `get_chunks_without_batches` (mongo_operations.py lines
24-78): the aggregation keeps exactly the chunks whose `(qid, chunk_id)`
pair occurs in no batch document's `chunk_ids` array (the `$lookup` has no
filter on the batch's `status`), then applies `$limit`. -/
def get_chunks_without_batches (chunks : List ChunkDoc) (batches : List EmbBatchMeta)
    (limit : Nat) : List ChunkDoc :=
  (chunks.filter fun c =>
    batches.all fun b => !(decide ((c.qid, c.chunk_id) ∈ b.chunk_ids))).take limit

/-- Embedding of `get_incomplete_batch_ids` (mongo_operations.py lines
118-147): batches with status in {validating, in_progress, finalizing}, or
completed but not yet processed. -/
def isIncompleteBatch (b : EmbBatchMeta) : Bool :=
  ["validating", "in_progress", "finalizing"].contains b.status
    || (b.status == "completed" && !b.processed)

/-- The ids returned by the incomplete-jobs query, in collection order. -/
def get_incomplete_batch_ids (batches : List EmbBatchMeta) : List String :=
  (batches.filter isIncompleteBatch).map EmbBatchMeta.batch_id

/-- Embedding of `update_batch_metadata_status` (mongo_operations.py lines
193-214): sets `status`, and sets `completed_at` exactly when the new status
is one of completed/failed/expired/cancelled. -/
def update_batch_metadata_status (store : List EmbBatchMeta)
    (batch_id status : String) : List EmbBatchMeta :=
  updateFirst (fun b => b.batch_id == batch_id)
    (fun b =>
      { b with
        status := status
        completed_at_set :=
          if ["completed", "failed", "expired", "cancelled"].contains status then true
          else b.completed_at_set })
    store

/-- Embedding of `mark_batch_as_processed` (mongo_operations.py lines
255-271): unconditionally sets `processed := true` on the matching batch
document. -/
def mark_batch_as_processed (store : List EmbBatchMeta) (batch_id : String) :
    List EmbBatchMeta :=
  updateFirst (fun b => b.batch_id == batch_id)
    (fun b => { b with processed := true }) store

end LeetcodeDB

namespace LeetcodeDB

/-! ## Claim C2: the fragments-without-a-job query -/

/-- Concrete chunk owned only by a superseded batch, for the C2
counterexample. -/
def c2Chunk : ChunkDoc := { qid := 1, chunk_id := 1, text := "two sum" }

/-- Concrete superseded batch owning `c2Chunk`. -/
def c2Batch : EmbBatchMeta :=
  { batch_id := "batch_old"
    openai_file_id := "file_old"
    status := "superseded"
    chunk_ids := [(1, 1)]
    processed := false
    result_file_id := none
    completed_at_set := true }

end LeetcodeDB

/-- Claim C2, counterexample: the claim says a fragment owned only by
superseded jobs is eligible to be returned by the fragments-without-a-job
query.  With one chunk `(1,1)` owned by a single batch whose status is
"superseded" and a generous limit, the source's aggregation (which matches
batch membership with no status filter) returns the empty list, so the
fragment is not returned. -/
theorem chunks_query_excludes_superseded_counterexample :
    LeetcodeDB.c2Batch.status = "superseded"
      ∧ (1, 1) ∈ LeetcodeDB.c2Batch.chunk_ids
      ∧ LeetcodeDB.get_chunks_without_batches [LeetcodeDB.c2Chunk]
          [LeetcodeDB.c2Batch] 10 = [] := by
  refine ⟨rfl, by decide, ?_⟩
  decide

/-- Claim C2, amended: `get_chunks_without_batches` returns only chunks
owned by no batch document at all, regardless of the batch's status
(superseded batches also block their chunks); the result respects the limit,
and when the limit covers the whole chunks collection, every chunk owned by
no batch is returned. -/
theorem chunks_query_excludes_any_batch (chunks : List LeetcodeDB.ChunkDoc)
    (batches : List LeetcodeDB.EmbBatchMeta) (limit : Nat) :
    (∀ c ∈ LeetcodeDB.get_chunks_without_batches chunks batches limit,
        c ∈ chunks ∧ ∀ b ∈ batches, (c.qid, c.chunk_id) ∉ b.chunk_ids)
      ∧ (LeetcodeDB.get_chunks_without_batches chunks batches limit).length ≤ limit
      ∧ (chunks.length ≤ limit →
          ∀ c ∈ chunks, (∀ b ∈ batches, (c.qid, c.chunk_id) ∉ b.chunk_ids) →
            c ∈ LeetcodeDB.get_chunks_without_batches chunks batches limit) := by
  unfold LeetcodeDB.get_chunks_without_batches
  refine ⟨?_, ?_, ?_⟩
  · intro c hc
    have hc2 := List.mem_of_mem_take hc
    have hc3 := List.mem_filter.mp hc2
    refine ⟨hc3.1, ?_⟩
    intro b hb
    have := List.all_eq_true.mp hc3.2 b hb
    simpa using this
  · exact List.length_take_le _ _
  · intro hlen c hc hnone
    have hfilter : c ∈ chunks.filter fun c =>
        batches.all fun b => !(decide ((c.qid, c.chunk_id) ∈ b.chunk_ids)) := by
      refine List.mem_filter.mpr ⟨hc, ?_⟩
      refine List.all_eq_true.mpr ?_
      intro b hb
      simpa using hnone b hb
    have hle : (chunks.filter fun c =>
        batches.all fun b => !(decide ((c.qid, c.chunk_id) ∈ b.chunk_ids))).length ≤ limit :=
      le_trans (List.length_filter_le _ _) hlen
    rw [List.take_of_length_le hle]
    exact hfilter

/-- Witness for `chunks_query_excludes_any_batch` at a concrete store: one
unowned chunk, one batch owning a different chunk, limit 5. -/
theorem chunks_query_excludes_any_batch_witness :
    LeetcodeDB.c2Chunk ∈ LeetcodeDB.get_chunks_without_batches [LeetcodeDB.c2Chunk]
      [{ LeetcodeDB.c2Batch with chunk_ids := [(2, 7)] }] 5 :=
  (chunks_query_excludes_any_batch [LeetcodeDB.c2Chunk]
      [{ LeetcodeDB.c2Batch with chunk_ids := [(2, 7)] }] 5).2.2
    (by decide) LeetcodeDB.c2Chunk (by decide) (by decide)

namespace LeetcodeDB

/-! ## Claim C6: resumability — incomplete jobs re-enter at the polling stage -/

/-- The stage names of the pipeline built by `main` (src/embeddings/main.py
lines 62-98), in addition order. -/
def mainStageNames : List String :=
  ["file-upload", "file-polling", "batch-creation", "batch-polling", "embedding-upload"]

/-- Embedding of the resume block of `main` (src/embeddings/main.py lines
105-123): each id returned by `get_incomplete_batch_ids` is enqueued
directly into the stage named "batch-polling" (looked up with
`get_stage_by_name`), bypassing `pipeline.enqueue` and hence the upload,
file-polling and batch-creation stages.  Each pair is (target stage name,
enqueued batch id). -/
def resumeEnqueues (batches : List EmbBatchMeta) : List (String × String) :=
  (get_incomplete_batch_ids batches).map fun id => ("batch-polling", id)

end LeetcodeDB

/-- Claim C6: a persisted job whose status is validating/in_progress/
finalizing, or completed with `processed = false`, is listed by the
incomplete-jobs query, and on restart its id is enqueued directly into the
job-completion ("batch-polling") stage; every resume enqueue targets that
stage, so the upload, file-readiness and job-creation stages are not re-run
for it. -/
theorem incomplete_jobs_resume_to_batch_polling
    (batches : List LeetcodeDB.EmbBatchMeta) (b : LeetcodeDB.EmbBatchMeta)
    (hb : b ∈ batches)
    (hst : b.status ∈ ["validating", "in_progress", "finalizing"]
            ∨ (b.status = "completed" ∧ b.processed = false)) :
    b.batch_id ∈ LeetcodeDB.get_incomplete_batch_ids batches
      ∧ ("batch-polling", b.batch_id) ∈ LeetcodeDB.resumeEnqueues batches
      ∧ ∀ e ∈ LeetcodeDB.resumeEnqueues batches,
          e.1 = "batch-polling" ∧ e.1 ≠ "file-upload" ∧ e.1 ≠ "file-polling"
            ∧ e.1 ≠ "batch-creation" := by
  have hinc : LeetcodeDB.isIncompleteBatch b = true := by
    unfold LeetcodeDB.isIncompleteBatch
    rcases hst with hin | ⟨hc, hp⟩
    · apply Bool.or_eq_true_iff.mpr
      left
      simp only [List.mem_cons, List.not_mem_nil, or_false] at hin
      rcases hin with h | h | h <;> simp [List.contains, h]
    · apply Bool.or_eq_true_iff.mpr
      right
      simp [hc, hp]
  have hid : b.batch_id ∈ LeetcodeDB.get_incomplete_batch_ids batches := by
    unfold LeetcodeDB.get_incomplete_batch_ids
    exact List.mem_map.mpr ⟨b, List.mem_filter.mpr ⟨hb, hinc⟩, rfl⟩
  refine ⟨hid, ?_, ?_⟩
  · exact List.mem_map.mpr ⟨b.batch_id, hid, rfl⟩
  · intro e he
    unfold LeetcodeDB.resumeEnqueues at he
    obtain ⟨id, _, rfl⟩ := List.mem_map.mp he
    refine ⟨rfl, ?_, ?_, ?_⟩
    · show ¬("batch-polling" = "file-upload")
      decide
    · show ¬("batch-polling" = "file-polling")
      decide
    · show ¬("batch-polling" = "batch-creation")
      decide

namespace LeetcodeDB

/-- Concrete in-progress job for the C6 witness. -/
def c6Live : EmbBatchMeta :=
  { batch_id := "batch_live", openai_file_id := "f1", status := "in_progress",
    chunk_ids := [(1, 1)], processed := false, result_file_id := none,
    completed_at_set := false }

/-- Concrete completed-and-processed job for the C6 witness. -/
def c6Done : EmbBatchMeta :=
  { batch_id := "batch_done", openai_file_id := "f2", status := "completed",
    chunk_ids := [(2, 2)], processed := true, result_file_id := some "out2",
    completed_at_set := true }

end LeetcodeDB

/-- Witness for `incomplete_jobs_resume_to_batch_polling`: a store holding
one in-progress job and one already-processed job. -/
theorem incomplete_jobs_resume_to_batch_polling_witness :
    ("batch-polling", "batch_live")
      ∈ LeetcodeDB.resumeEnqueues [LeetcodeDB.c6Live, LeetcodeDB.c6Done] :=
  (incomplete_jobs_resume_to_batch_polling [LeetcodeDB.c6Live, LeetcodeDB.c6Done]
      LeetcodeDB.c6Live (by decide) (Or.inl (by decide))).2.1

namespace LeetcodeDB

/-! ## Claim C1: result ingestion and the `processed` flag -/

/-- The `embeddings` result collection: one persisted vector per
`(qid, chunk_id)` key. -/
abbrev EmbResultStore := List ((Nat × Nat) × List Int)

/-- Intended upsert semantics of one `ReplaceOne(..., upsert=True)` of
`upload_embeddings_to_mongo` (mongo_operations.py lines 217-252). -/
def upsertEmbedding (store : EmbResultStore) (key : Nat × Nat) (v : List Int) :
    EmbResultStore :=
  if store.any fun e => decide (e.1 = key) then
    store.map fun e => if e.1 = key then (key, v) else e
  else store ++ [(key, v)]

/-- Intended effect of the whole bulk write of `upload_embeddings_to_mongo`:
upsert every downloaded record. -/
def upload_embeddings_full_write (store : EmbResultStore)
    (embeddings : List ((Nat × Nat) × List Int)) : EmbResultStore :=
  embeddings.foldl (fun st e => upsertEmbedding st e.1 e.2) store

/-- Embedding of `EmbeddingUploadStage.process_item`
(src/embeddings/stages/embedding_upload_stage.py lines 29-90).

`download` is the dictionary returned by `download_batch_results` (that
function catches its own exceptions and returns an empty dict on error).
`writeEffect` is the database's bulk-write effect: `Except.error` models the
call raising (caught by the stage's `try/except`, which drops the item
without shutdown), while `Except.ok st2` models the call returning normally
with `st2` the resulting contents of the result store — a silent partial
write is an `Except.ok` whose store is missing records.

The stage: validates the item shape (enforced here by types), skips when no
embeddings were downloaded, uploads, then immediately calls
`mark_batch_as_processed` — there is no read-back query of the result store
between the bulk write and setting `processed = true`. -/
def embeddingUploadProcessItem (meta : List EmbBatchMeta) (results : EmbResultStore)
    (item : String × String) (download : List ((Nat × Nat) × List Int))
    (writeEffect : EmbResultStore → List ((Nat × Nat) × List Int) →
      Except Unit EmbResultStore) :
    List EmbBatchMeta × EmbResultStore :=
  if download.isEmpty then (meta, results)
  else
    match writeEffect results download with
    | Except.error _ => (meta, results)
    | Except.ok results2 => (mark_batch_as_processed meta item.1, results2)

/-- Concrete unprocessed completed batch for the C1 counterexample. -/
def c1Batch : EmbBatchMeta :=
  { batch_id := "batch_1", openai_file_id := "file_1", status := "completed",
    chunk_ids := [(1, 1)], processed := false, result_file_id := some "out_1",
    completed_at_set := true }

end LeetcodeDB

/-- Claim C1, counterexample: the claim says `processed` is set true only
after a read-back confirms every record produced for the job is persisted,
and that a simulated partial write leaves `processed = false`.  Run the
upload stage on batch "batch_1" with one downloaded record `((1,1), [7])`
and a write effect that raises no error but persists nothing (a silent
partial write): the stage still marks the batch processed, while the result
store does not contain the record. -/
theorem mark_processed_without_readback_counterexample :
    (LeetcodeDB.embeddingUploadProcessItem [LeetcodeDB.c1Batch] []
        ("batch_1", "out_1") [((1, 1), [7])] (fun st _ => Except.ok st)).1
        = [{ LeetcodeDB.c1Batch with processed := true }]
      ∧ ((1, 1), [7]) ∉ (LeetcodeDB.embeddingUploadProcessItem [LeetcodeDB.c1Batch] []
          ("batch_1", "out_1") [((1, 1), [7])] (fun st _ => Except.ok st)).2 := by
  constructor
  · decide
  · decide

/-- Claim C1, amended: the upload stage sets `processed := true` exactly
when the download produced at least one record and the bulk-write call
returned without raising, regardless of what the write actually persisted;
no read-back verification is performed.  Conversely, an empty download or a
raising write leaves the metadata store (and hence `processed`) unchanged. -/
theorem mark_processed_follows_bulk_write_only (meta : List LeetcodeDB.EmbBatchMeta)
    (results results2 : LeetcodeDB.EmbResultStore) (item : String × String)
    (download : List ((Nat × Nat) × List Int))
    (writeEffect : LeetcodeDB.EmbResultStore → List ((Nat × Nat) × List Int) →
      Except Unit LeetcodeDB.EmbResultStore) :
    (download ≠ [] → writeEffect results download = Except.ok results2 →
      LeetcodeDB.embeddingUploadProcessItem meta results item download writeEffect
        = (LeetcodeDB.mark_batch_as_processed meta item.1, results2))
      ∧ (download = [] →
          LeetcodeDB.embeddingUploadProcessItem meta results item download writeEffect
            = (meta, results))
      ∧ (∀ e, writeEffect results download = Except.error e →
          LeetcodeDB.embeddingUploadProcessItem meta results item download writeEffect
            = (meta, results)) := by
  refine ⟨?_, ?_, ?_⟩
  · intro hne hok
    unfold LeetcodeDB.embeddingUploadProcessItem
    rw [if_neg (by simpa using hne), hok]
  · intro hempty
    subst hempty
    rfl
  · intro e herr
    unfold LeetcodeDB.embeddingUploadProcessItem
    by_cases hd : download.isEmpty
    · rw [if_pos hd]
    · rw [if_neg hd, herr]

/-- Witness for `mark_processed_follows_bulk_write_only`: the partial-write
run of the counterexample still marks the batch processed. -/
theorem mark_processed_follows_bulk_write_only_witness :
    LeetcodeDB.embeddingUploadProcessItem [LeetcodeDB.c1Batch] []
        ("batch_1", "out_1") [((1, 1), [7])] (fun st _ => Except.ok st)
      = (LeetcodeDB.mark_batch_as_processed [LeetcodeDB.c1Batch] "batch_1", []) :=
  (mark_processed_follows_bulk_write_only [LeetcodeDB.c1Batch] [] []
      ("batch_1", "out_1") [((1, 1), [7])] (fun st _ => Except.ok st)).1
    (by decide) rfl

namespace LeetcodeDB

/-! ## Polling stages (claims C4 and C7) -/

/-- What one iteration of a polling stage's `while True` loop decides to do,
as observable from `process_item`: forward an output item (the `return` of a
pair), drop with a warning (the `return None` without shutdown), trigger
pipeline shutdown and drop, or sleep and poll again. -/
inductive PollAction (β : Type) where
  | forward : β → PollAction β
  | dropNoForward : PollAction β
  | shutdownAndDrop : PollAction β
  | sleepAndRepoll : PollAction β
deriving DecidableEq, Repr

/-- Embedding of `poll_batch_status` (openai_operations.py lines 92-122):
the remote retrieve either returns a `(status, output_file_id)` pair or
raises; the `except` branch returns `("error", None)`. -/
def poll_batch_status (remote : Except Unit (String × Option String)) :
    String × Option String :=
  match remote with
  | Except.error _ => ("error", none)
  | Except.ok r => r

/-- The MongoDB update performed inside the `try` of `poll_batch_status`
(openai_operations.py lines 108-117): sets `status`, `result_file_id`, and
`completed_at` (a datetime exactly for completed/failed/expired, else
`None`). -/
def poll_batch_status_persist (store : List EmbBatchMeta) (batch_id status : String)
    (output_file_id : Option String) : List EmbBatchMeta :=
  updateFirst (fun b => b.batch_id == batch_id)
    (fun b =>
      { b with
        status := status
        result_file_id := output_file_id
        completed_at_set := ["completed", "failed", "expired"].contains status })
    store

/-- Embedding of `poll_file_status` (openai_operations.py lines 72-89): the
remote retrieve either returns a status string or raises; the `except`
branch returns `("error", False)`, and `is_ready` is `status == "processed"`. -/
def poll_file_status (remote : Except Unit String) : String × Bool :=
  match remote with
  | Except.error _ => ("error", false)
  | Except.ok st => (st, st == "processed")

/-- The terminal-state set of `BatchPollingStage.process_item`
(batch_polling_stage.py line 41).  Note that it contains "error". -/
def terminalStates : List String := ["completed", "failed", "expired", "cancelled", "error"]

/-- The branch structure of one loop iteration of
`BatchPollingStage.process_item` (batch_polling_stage.py lines 47-99), given
the polled `(status, output_file_id)`: `failed` is checked first, then
`completed` (dropping when `output_file_id` is absent), then membership in
`terminalStates`, else sleep and poll again. -/
def batchPollStepAction (batch_id status : String) (output_file_id : Option String) :
    PollAction (String × String) :=
  if status == "failed" then PollAction.shutdownAndDrop
  else if status == "completed" then
    match output_file_id with
    | none => PollAction.dropNoForward
    | some f => PollAction.forward (batch_id, f)
  else if terminalStates.contains status then PollAction.shutdownAndDrop
  else PollAction.sleepAndRepoll

/-- One full loop iteration of `BatchPollingStage.process_item` including
its store writes: `poll_batch_status` persists (when the remote call does
not raise), then `update_batch_metadata_status` is called with the polled
status, then the branch is taken. -/
def batchPollStep (store : List EmbBatchMeta) (batch_id : String)
    (remote : Except Unit (String × Option String)) :
    List EmbBatchMeta × PollAction (String × String) :=
  let polled := poll_batch_status remote
  let store1 :=
    match remote with
    | Except.error _ => store
    | Except.ok _ => poll_batch_status_persist store batch_id polled.1 polled.2
  let store2 := update_batch_metadata_status store1 batch_id polled.1
  (store2, batchPollStepAction batch_id polled.1 polled.2)

/-- The branch structure of one loop iteration of
`FilePollingStage.process_item` (file_polling_stage.py lines 54-88), given
the polled `(status, is_ready)`: shutdown and drop on "failed", forward
`(file_id, chunk_ids)` when ready, else sleep and poll again. -/
def filePollStepAction (file_id : String) (chunk_ids : List (Nat × Nat))
    (status : String) (is_ready : Bool) : PollAction (String × List (Nat × Nat)) :=
  if status == "failed" then PollAction.shutdownAndDrop
  else if is_ready then PollAction.forward (file_id, chunk_ids)
  else PollAction.sleepAndRepoll

end LeetcodeDB

/-- Claim C4, counterexample: the claim says that for every polling stage a
poll call that raises is treated as status error/unknown and simply polled
again on the next tick, never dropping the item and never triggering
shutdown.  For the job-completion polling stage this is false: a raising
poll yields status "error", which is in the stage's terminal set, so the
iteration triggers pipeline shutdown and drops the item instead of polling
again. -/
theorem batch_poll_error_shuts_down_counterexample :
    LeetcodeDB.poll_batch_status (Except.error ()) = ("error", none)
      ∧ (LeetcodeDB.batchPollStep [] "batch_1" (Except.error ())).2
          = LeetcodeDB.PollAction.shutdownAndDrop
      ∧ (LeetcodeDB.batchPollStep [] "batch_1" (Except.error ())).2
          ≠ LeetcodeDB.PollAction.sleepAndRepoll := by
  refine ⟨rfl, by decide, by decide⟩

/-- Claim C4, amended: a raising poll call is mapped to status "error" by
both poll wrappers.  The file-readiness polling stage then neither forwards,
drops, nor shuts down — it sleeps and polls again on the next tick.  The
job-completion polling stage, by contrast, includes "error" in its terminal
set, so a raising poll there triggers pipeline shutdown and drops the item;
on a raising poll neither wrapper touches the polled document beyond the
stage's own status write. -/
theorem poll_error_retries_only_in_file_stage (file_id batch_id : String)
    (chunk_ids : List (Nat × Nat)) (store : List LeetcodeDB.EmbBatchMeta) :
    LeetcodeDB.poll_file_status (Except.error ()) = ("error", false)
      ∧ LeetcodeDB.filePollStepAction file_id chunk_ids
          (LeetcodeDB.poll_file_status (Except.error ())).1
          (LeetcodeDB.poll_file_status (Except.error ())).2
          = LeetcodeDB.PollAction.sleepAndRepoll
      ∧ LeetcodeDB.poll_batch_status (Except.error ()) = ("error", none)
      ∧ (LeetcodeDB.batchPollStep store batch_id (Except.error ())).2
          = LeetcodeDB.PollAction.shutdownAndDrop
      ∧ (LeetcodeDB.batchPollStep store batch_id (Except.error ())).1
          = LeetcodeDB.update_batch_metadata_status store batch_id "error" := by
  refine ⟨rfl, ?_, rfl, ?_, rfl⟩
  · show LeetcodeDB.filePollStepAction file_id chunk_ids "error" false
        = LeetcodeDB.PollAction.sleepAndRepoll
    rfl
  · show LeetcodeDB.batchPollStepAction batch_id "error" none
        = LeetcodeDB.PollAction.shutdownAndDrop
    rfl

namespace LeetcodeDB

/-- Spec-side branch table of the job-completion polling stage, written from
the spec's words (§4.3 JobCompletionPollStage): on `completed` with a
present result-file reference forward `(jobID, resultFileID)`; on
`completed` with the reference missing, log and drop without shutdown; on
`failed` persist, trigger shutdown and drop; on any other terminal state
(`expired`/`cancelled`/`error`) persist, trigger shutdown and drop;
otherwise sleep and poll again. -/
def specJobCompletionPollAction (jobID status : String)
    (resultFileID : Option String) : PollAction (String × String) :=
  if status == "completed" then
    match resultFileID with
    | some f => PollAction.forward (jobID, f)
    | none => PollAction.dropNoForward
  else if status == "failed" then PollAction.shutdownAndDrop
  else if ["expired", "cancelled", "error"].contains status then
    PollAction.shutdownAndDrop
  else PollAction.sleepAndRepoll

end LeetcodeDB

/-- Claim C7: one iteration of `BatchPollingStage.process_item` takes
exactly the action the spec's branch table prescribes, for every status and
result-file reference; and on a non-raising poll the polled status and
result-file reference are persisted on the job's document. -/
theorem job_completion_poll_matches_spec_table (jobID status : String)
    (out : Option String) (b : LeetcodeDB.EmbBatchMeta)
    (hid : b.batch_id = jobID) :
    LeetcodeDB.batchPollStepAction jobID status out
        = LeetcodeDB.specJobCompletionPollAction jobID status out
      ∧ ((LeetcodeDB.batchPollStep [b] jobID (Except.ok (status, out))).1.head?.map
          LeetcodeDB.EmbBatchMeta.status) = some status
      ∧ ((LeetcodeDB.batchPollStep [b] jobID (Except.ok (status, out))).1.head?.map
          LeetcodeDB.EmbBatchMeta.result_file_id) = some out := by
  subst hid
  constructor
  · by_cases h1 : status = "failed"
    · subst h1
      cases out <;> rfl
    · by_cases h2 : status = "completed"
      · subst h2
        cases out <;> rfl
      · by_cases h3 : status = "expired"
        · subst h3
          cases out <;> rfl
        · by_cases h4 : status = "cancelled"
          · subst h4
            cases out <;> rfl
          · by_cases h5 : status = "error"
            · subst h5
              cases out <;> rfl
            · simp [LeetcodeDB.batchPollStepAction,
                LeetcodeDB.specJobCompletionPollAction, LeetcodeDB.terminalStates,
                List.contains, h1, h2, h3, h4, h5]
  · constructor <;>
      simp [LeetcodeDB.batchPollStep, LeetcodeDB.poll_batch_status,
        LeetcodeDB.poll_batch_status_persist, LeetcodeDB.update_batch_metadata_status,
        LeetcodeDB.updateFirst]

/-- Witness for `job_completion_poll_matches_spec_table`: a completed poll
of batch "batch_1" with result file "out_1" forwards the pair and persists
both fields. -/
theorem job_completion_poll_matches_spec_table_witness :
    LeetcodeDB.batchPollStepAction "batch_1" "completed" (some "out_1")
        = LeetcodeDB.specJobCompletionPollAction "batch_1" "completed" (some "out_1")
      ∧ ((LeetcodeDB.batchPollStep [LeetcodeDB.c1Batch] "batch_1"
            (Except.ok ("completed", some "out_1"))).1.head?.map
          LeetcodeDB.EmbBatchMeta.status) = some "completed"
      ∧ ((LeetcodeDB.batchPollStep [LeetcodeDB.c1Batch] "batch_1"
            (Except.ok ("completed", some "out_1"))).1.head?.map
          LeetcodeDB.EmbBatchMeta.result_file_id) = some (some "out_1") :=
  job_completion_poll_matches_spec_table "batch_1" "completed" (some "out_1")
    LeetcodeDB.c1Batch rfl

namespace LeetcodeDB

/-! ## Claim C10: the worker loop calls task_done exactly once per item -/

/-- Observable queue events of one worker handling one dequeued item in
`PipelineStage._worker_loop` (base_stage.py lines 58-78): forwarding the
result to the successor's queue, and the `task_done()` call on the input
queue. -/
inductive WorkerEvent (β : Type) where
  | forwardedItem : β → WorkerEvent β
  | taskDone : WorkerEvent β
deriving DecidableEq, Repr

/-- Whether an event is the `task_done()` call. -/
def WorkerEvent.isTaskDone : WorkerEvent β → Bool
  | WorkerEvent.taskDone => true
  | _ => false

/-- Embedding of the loop body of `_worker_loop` for one dequeued item:
`process_item` either returns a result (`Except.ok`, with `none` meaning
the Python `None`) or raises (`Except.error`).  The `try` body forwards to
the next stage only when a successor exists and the result is not `None`;
the `finally` block calls `task_done()` in both the normal and the raising
path. -/
def workerHandleItem (hasNextStage : Bool) (result : Except Unit (Option β)) :
    List (WorkerEvent β) :=
  match result with
  | Except.error _ => [WorkerEvent.taskDone]
  | Except.ok r =>
      (match hasNextStage, r with
       | true, some b => [WorkerEvent.forwardedItem b]
       | _, _ => []) ++ [WorkerEvent.taskDone]

/-- The events of one worker draining a list of dequeued items, where
`proc` gives each item's `process_item` outcome. -/
def workerRunEvents (hasNextStage : Bool) (items : List α)
    (proc : α → Except Unit (Option β)) : List (WorkerEvent β) :=
  items.flatMap fun a => workerHandleItem hasNextStage (proc a)

/-- Number of `task_done()` calls in a list of worker events.  The
`asyncio.Queue.join()` used by `EmbeddingPipeline.wait_for_completion`
(pipeline.py lines 99-112) unblocks exactly when this count reaches the
number of items removed from the queue. -/
def countTaskDone (evs : List (WorkerEvent β)) : Nat :=
  (evs.filter WorkerEvent.isTaskDone).length

end LeetcodeDB

/-- Claim C10: for every dequeued item the worker loop emits exactly one
`task_done()` call — also when `process_item` raises — and over any list of
dequeued items the number of `task_done()` calls equals the number of
items, so the per-stage `queue.join()` of `wait_for_completion` is not left
waiting on an item whose processing terminated abnormally. -/
theorem worker_loop_task_done_exactly_once (hasNextStage : Bool)
    (result : Except Unit (Option β)) (items : List α)
    (proc : α → Except Unit (Option β)) :
    LeetcodeDB.countTaskDone (LeetcodeDB.workerHandleItem hasNextStage result) = 1
      ∧ LeetcodeDB.countTaskDone
          (LeetcodeDB.workerRunEvents hasNextStage items proc) = items.length := by
  have hone : ∀ r : Except Unit (Option β),
      LeetcodeDB.countTaskDone (LeetcodeDB.workerHandleItem hasNextStage r) = 1 := by
    intro r
    match r with
    | Except.error e => rfl
    | Except.ok none =>
        cases hasNextStage <;> rfl
    | Except.ok (some b) =>
        cases hasNextStage <;> rfl
  refine ⟨hone result, ?_⟩
  induction items with
  | nil => rfl
  | cons a rest ih =>
      unfold LeetcodeDB.workerRunEvents at ih ⊢
      rw [List.flatMap_cons]
      unfold LeetcodeDB.countTaskDone at ih ⊢
      rw [List.filter_append, List.length_append]
      have := hone (proc a)
      unfold LeetcodeDB.countTaskDone at this
      rw [this, ih]
      simp [List.length_cons, Nat.add_comm]

namespace LeetcodeDB

/-! ## Pipeline orchestrator (claims C9 and C5) -/

/-- A `PipelineStage` as seen by the orchestrator (base_stage.py lines
32-47): its name, its successor (held by name here; the source holds an
object reference), its `_running` flag, its input queue contents, and the
number of live worker tasks.  The stage's back-reference to the pipeline
(`set_pipeline`) carries no state of its own and is not modelled. -/
structure StageRec (α : Type) where
  name : String
  next_stage : Option String
  running : Bool
  queue : List α
  workers : Nat
deriving DecidableEq, Repr

/-- The `EmbeddingPipeline` state (pipeline.py lines 27-31). -/
structure PipelineRec (α : Type) where
  stages : List (StageRec α)
  started : Bool
  shutdown_reason : Option String
deriving DecidableEq, Repr

/-- The message of the `RuntimeError` raised by `add_stage` after start. -/
def addStageErrorMsg : String :=
  "Cannot add stages after pipeline has been started. Call shutdown() first, then add stages."

/-- The assignment `self.stages[-1].next_stage = stage` of `add_stage`
(pipeline.py line 50): set the last stage's successor pointer to the named
stage. -/
def linkLast : List (StageRec α) → String → List (StageRec α)
  | [], _ => []
  | [x], nm => [{ x with next_stage := some nm }]
  | x :: y :: xs, nm => x :: linkLast (y :: xs) nm

/-- Embedding of `EmbeddingPipeline.add_stage` (pipeline.py lines 33-55):
raise after start (leaving the stage list untouched); otherwise point the
previously added stage at the new one and append the new stage, whose own
`next_stage` is left as it came in. -/
def add_stage (p : PipelineRec α) (s : StageRec α) : Except String (PipelineRec α) :=
  if p.started then Except.error addStageErrorMsg
  else Except.ok { p with stages := linkLast p.stages s.name ++ [s] }

/-- The state of a stage whose `stop_workers` call ran to completion:
`_running` cleared and `_worker_tasks` cleared.  The input queue is not
touched. -/
def stopAllWorkers (s : StageRec α) : StageRec α :=
  { s with running := false, workers := 0 }

/-- Embedding of `PipelineStage.stop_workers` (base_stage.py lines 94-105),
made explicit about the caller's identity, which the source leaves implicit:
`callerIdx = none` means the call does not run inside one of THIS stage's
own worker tasks; `callerIdx = some k` means it runs inside this stage's
worker number `k` of `_worker_tasks` — as happens when a polling worker
triggers the pipeline shutdown that then stops its own stage.

The body first clears `_running` and calls `task.cancel()` on every worker
task — in the `some k` case including the currently running task, whose
self-cancellation becomes pending.  It then awaits the tasks in list order,
catching only `asyncio.CancelledError`:

* `none` — every awaited task finishes cancelled, each `await` raises
  `CancelledError` (caught); the loop completes and `_worker_tasks` is
  cleared.
* `some 0` — the first `await` is the self-await; the event loop raises
  `RuntimeError` for a task awaiting itself, but since the pending
  self-cancellation is still unconsumed, `Task.__step` replaces the
  delivered exception with `CancelledError`, which is caught; the loop then
  drains the remaining cancelled tasks and clears the list.
* `some k` with `k ≠ 0` — the pending self-cancellation is consumed at the
  first `await` (redirected onto the awaited task, whose `CancelledError`
  is caught), so when the loop reaches worker `k` the self-await raises
  `RuntimeError ("Task cannot await on itself")`, which nothing catches:
  the call aborts with `_running` already cleared but `_worker_tasks` not
  cleared.

The Boolean in the result records whether the call raised. -/
def stop_workers (s : StageRec α) (callerIdx : Option Nat) : StageRec α × Bool :=
  match callerIdx with
  | none => (stopAllWorkers s, false)
  | some k =>
      if k == 0 then (stopAllWorkers s, false)
      else ({ s with running := false }, true)

/-- Which index the caller occupies in a given stage's worker-task list:
`caller = some (nm, k)` models the shutdown running inside worker `k` of
the stage named `nm`; for every other stage the caller is external. -/
def callerIdxFor (caller : Option (String × Nat)) (s : StageRec α) : Option Nat :=
  match caller with
  | none => none
  | some (nm, k) => if s.name == nm then some k else none

/-- The reversed-order stop loop of `EmbeddingPipeline.shutdown`
(pipeline.py lines 150-151), over the already-reversed stage list: stop
each stage in turn; when a `stop_workers` call raises, the uncaught
exception aborts the loop, leaving the remaining stages untouched.
Returns the stage list after the loop, the names of the stages whose
`stop_workers` was invoked (in invocation order), and whether the loop
aborted. -/
def stopStagesRev (caller : Option (String × Nat)) :
    List (StageRec α) → List (StageRec α) × List String × Bool
  | [] => ([], [], false)
  | s :: rest =>
      match stop_workers s (callerIdxFor caller s) with
      | (s2, true) => (s2 :: rest, [s.name], true)
      | (s2, false) =>
          let r := stopStagesRev caller rest
          (s2 :: r.1, s.name :: r.2.1, r.2.2)

/-- Embedding of `EmbeddingPipeline.shutdown` (pipeline.py lines 139-153):
when started, run the reversed stop loop; `self._started = False` executes
only if the loop completes — an exception escaping a `stop_workers` call
propagates out of `shutdown`, leaving `_started` true.  Returns the new
pipeline state, the invoked stop order, and whether the loop aborted. -/
def shutdown (p : PipelineRec α) (caller : Option (String × Nat)) :
    PipelineRec α × List String × Bool :=
  if p.started then
    match stopStagesRev caller p.stages.reverse with
    | (stages2, order, aborted) =>
        ({ p with
            stages := stages2.reverse
            started := if aborted then p.started else false },
          order, aborted)
  else (p, [], false)

/-- Embedding of `EmbeddingPipeline.trigger_shutdown` (pipeline.py lines
126-137): when started, record the reason and call `shutdown`, from the
same calling task. -/
def trigger_shutdown (p : PipelineRec α) (reason : String)
    (caller : Option (String × Nat)) : PipelineRec α × List String × Bool :=
  if p.started then shutdown { p with shutdown_reason := some reason } caller
  else (p, [], false)

/-- Embedding of `EmbeddingPipeline.enqueue` (pipeline.py lines 72-83):
raise when there are no stages, raise when not started, else append the
item to stage 0's input queue. -/
def pipeline_enqueue (p : PipelineRec α) (item : α) : Except String (PipelineRec α) :=
  match p.stages with
  | [] => Except.error "Cannot enqueue: pipeline has no stages"
  | s0 :: rest =>
      if p.started then
        Except.ok { p with stages := { s0 with queue := s0.queue ++ [item] } :: rest }
      else Except.error "Cannot enqueue: pipeline not started. Call start() first."

/-- `linkLast` keeps the stage names unchanged. -/
theorem linkLast_map_name (l : List (StageRec α)) (nm : String) :
    (linkLast l nm).map StageRec.name = l.map StageRec.name := by
  induction l with
  | nil => rfl
  | cons x xs ih =>
      cases xs with
      | nil => rfl
      | cons y ys =>
          show x.name :: (linkLast (y :: ys) nm).map StageRec.name
              = x.name :: (y :: ys).map StageRec.name
          rw [ih]

/-- `linkLast` preserves the list length. -/
theorem linkLast_length (l : List (StageRec α)) (nm : String) :
    (linkLast l nm).length = l.length := by
  have h := linkLast_map_name l nm
  have := congrArg List.length h
  simpa using this

/-- After `linkLast`, the last stage's successor pointer is the given name. -/
theorem linkLast_last_pointer (l : List (StageRec α)) (nm : String) (hne : l ≠ []) :
    ((linkLast l nm)[l.length - 1]?).map StageRec.next_stage = some (some nm) := by
  induction l with
  | nil => exact absurd rfl hne
  | cons x xs ih =>
      cases xs with
      | nil => rfl
      | cons y ys =>
          show ((x :: linkLast (y :: ys) nm)[(y :: ys).length]?).map StageRec.next_stage
              = some (some nm)
          rw [List.length_cons, List.getElem?_cons_succ]
          simpa using ih (by simp)

end LeetcodeDB

/-- Claim C9, counterexample: the claim says that after `add_stage(stage)`
on a pipeline that already has a stage, the newly added stage's successor
pointer equals the previously added stage.  Adding "s2" to a pipeline
holding only "s1" produces the opposite wiring: "s1" now points at "s2",
and the new stage "s2" has no successor — in particular not "s1". -/
theorem add_stage_pointer_direction_counterexample :
    LeetcodeDB.add_stage
        { stages := [{ name := "s1", next_stage := none, running := false,
                       queue := ([] : List Unit), workers := 0 }],
          started := false, shutdown_reason := none }
        { name := "s2", next_stage := none, running := false, queue := [], workers := 0 }
      = Except.ok
          { stages := [{ name := "s1", next_stage := some "s2", running := false,
                         queue := [], workers := 0 },
                       { name := "s2", next_stage := none, running := false,
                         queue := [], workers := 0 }],
            started := false, shutdown_reason := none }
      ∧ (some "s1" : Option String) ≠ none := by
  exact ⟨rfl, by decide⟩

/-- Claim C9, amended: `add_stage` on a non-started pipeline appends the new
stage (its own successor pointer unchanged) and sets the previously added
stage's successor pointer to the new stage — the wiring direction is
`previous.next_stage = newStage`, not `newStage.next_stage = previous`;
calling `add_stage` after `Start()` raises, leaving the stage list
unchanged (the error is returned without producing a new pipeline state). -/
theorem add_stage_links_previous_to_new {α : Type} (p : LeetcodeDB.PipelineRec α)
    (s : LeetcodeDB.StageRec α) :
    (p.started = true → LeetcodeDB.add_stage p s
        = Except.error LeetcodeDB.addStageErrorMsg)
      ∧ (p.started = false →
          ∃ p2, LeetcodeDB.add_stage p s = Except.ok p2
            ∧ p2.stages.map LeetcodeDB.StageRec.name
                = p.stages.map LeetcodeDB.StageRec.name ++ [s.name]
            ∧ p2.stages.getLast? = some s
            ∧ (p.stages ≠ [] →
                (p2.stages[p.stages.length - 1]?).map LeetcodeDB.StageRec.next_stage
                  = some (some s.name))) := by
  constructor
  · intro h
    unfold LeetcodeDB.add_stage
    rw [if_pos h]
  · intro h
    refine ⟨{ p with stages := LeetcodeDB.linkLast p.stages s.name ++ [s] }, ?_, ?_, ?_, ?_⟩
    · unfold LeetcodeDB.add_stage
      rw [if_neg (by rw [h]; exact Bool.false_ne_true)]
    · show (LeetcodeDB.linkLast p.stages s.name ++ [s]).map LeetcodeDB.StageRec.name
          = p.stages.map LeetcodeDB.StageRec.name ++ [s.name]
      rw [List.map_append, LeetcodeDB.linkLast_map_name]
      rfl
    · exact List.getLast?_concat _
    · intro hne
      show ((LeetcodeDB.linkLast p.stages s.name ++ [s])[p.stages.length - 1]?).map
          LeetcodeDB.StageRec.next_stage = some (some s.name)
      rw [List.getElem?_append_left]
      · exact LeetcodeDB.linkLast_last_pointer p.stages s.name hne
      · rw [LeetcodeDB.linkLast_length]
        have : 0 < p.stages.length := List.length_pos.mpr hne
        omega

/-- Witness for `add_stage_links_previous_to_new`: adding "s2" to a
non-started pipeline holding "s1" appends it and rewires "s1". -/
theorem add_stage_links_previous_to_new_witness :
    ∃ p2, LeetcodeDB.add_stage
        { stages := [{ name := "s1", next_stage := none, running := false,
                       queue := ([] : List Unit), workers := 0 }],
          started := false, shutdown_reason := none }
        { name := "s2", next_stage := none, running := false, queue := [], workers := 0 }
      = Except.ok p2
      ∧ p2.stages.map LeetcodeDB.StageRec.name = ["s1", "s2"]
      ∧ p2.stages.getLast? = some { name := "s2", next_stage := none, running := false,
                                    queue := [], workers := 0 }
      ∧ (([{ name := "s1", next_stage := none, running := false,
             queue := ([] : List Unit), workers := 0 }] :
            List (LeetcodeDB.StageRec Unit)) ≠ [] →
          (p2.stages[0]?).map LeetcodeDB.StageRec.next_stage = some (some "s2")) := by
  obtain ⟨p2, h1, h2, h3, h4⟩ :=
    (add_stage_links_previous_to_new
        { stages := [{ name := "s1", next_stage := none, running := false,
                       queue := ([] : List Unit), workers := 0 }],
          started := false, shutdown_reason := none }
        { name := "s2", next_stage := none, running := false, queue := [],
          workers := 0 }).2 rfl
  exact ⟨p2, h1, by simpa using h2, h3, h4⟩

namespace LeetcodeDB

/-- Projection fact used by the queue-preservation conjunct. -/
theorem stopAllWorkers_queue (s : StageRec α) : (stopAllWorkers s).queue = s.queue := rfl

/-- The stop loop when the caller is external to every stage, or the first
worker of whichever stage it belongs to: every `stop_workers` call
completes, in list order. -/
theorem stopStagesRev_benign {α : Type} (caller : Option (String × Nat))
    (hben : caller = none ∨ ∃ nm, caller = some (nm, 0))
    (l : List (StageRec α)) :
    stopStagesRev caller l
      = (l.map stopAllWorkers, l.map StageRec.name, false) := by
  induction l with
  | nil => rfl
  | cons s rest ih =>
      have hstep : stop_workers s (callerIdxFor caller s)
          = (stopAllWorkers s, false) := by
        rcases hben with hnone | ⟨nm, hcal⟩
        · subst hnone
          rfl
        · subst hcal
          simp only [callerIdxFor]
          by_cases hnm : (s.name == nm) = true
          · rw [if_pos hnm]
            rfl
          · rw [if_neg hnm]
            rfl
      simp [stopStagesRev, hstep, ih]

/-- The stop loop when the caller is worker `k ≠ 0` of stage `cs`: the
stages before `cs` in the reversed list are stopped, the call on `cs`
raises at the self-await, and the loop aborts leaving the rest untouched. -/
theorem stopStagesRev_abort {α : Type} (cs : StageRec α) (k : Nat) (hk : k ≠ 0)
    (A B : List (StageRec α)) (hA : ∀ s ∈ A, s.name ≠ cs.name) :
    stopStagesRev (some (cs.name, k)) (A ++ cs :: B)
      = (A.map stopAllWorkers ++ { cs with running := false } :: B,
          A.map StageRec.name ++ [cs.name], true) := by
  induction A with
  | nil =>
      have hidx : callerIdxFor (some (cs.name, k)) cs = some k := by
        simp only [callerIdxFor]
        rw [if_pos (beq_self_eq_true cs.name)]
      have hstep : stop_workers cs (some k)
          = ({ cs with running := false }, true) := by
        simp only [stop_workers]
        rw [if_neg (by simpa using hk)]
      simp [stopStagesRev, hidx, hstep]
  | cons a A ih =>
      have hidx : callerIdxFor (some (cs.name, k)) a = none := by
        simp only [callerIdxFor]
        rw [if_neg (by simpa using hA a (List.mem_cons_self a A))]
      have hstep : stop_workers a none = (stopAllWorkers a, false) := rfl
      have ih2 := ih fun s hs => hA s (List.mem_cons_of_mem a hs)
      simp [stopStagesRev, hidx, hstep, ih2]

/-- A started pipeline with at least one stage accepts an enqueue: the item
is appended to stage 0's queue. -/
theorem pipeline_enqueue_ok (p : PipelineRec α) (item : α) (hs : p.started = true)
    (hne : p.stages ≠ []) : ∃ p3, pipeline_enqueue p item = Except.ok p3 := by
  obtain ⟨s0, rest, hcons⟩ := List.exists_cons_of_ne_nil hne
  refine ⟨{ p with stages := { s0 with queue := s0.queue ++ [item] } :: rest }, ?_⟩
  unfold pipeline_enqueue
  rw [hcons]
  show (if p.started = true then _ else _) = _
  rw [if_pos hs]

/-- One of the five stages built by `main`, with the configured concurrency
of 5 workers (config.py lines 102-106). -/
def c5Stage (nm : String) (nxt : Option String) : StageRec Unit :=
  { name := nm, next_stage := nxt, running := true, queue := [()], workers := 5 }

/-- The started five-stage pipeline of `main` as the C5 scenario begins. -/
def c5Pipeline : PipelineRec Unit :=
  { stages :=
      [c5Stage "file-upload" (some "file-polling"),
       c5Stage "file-polling" (some "batch-creation"),
       c5Stage "batch-creation" (some "batch-polling"),
       c5Stage "batch-polling" (some "embedding-upload"),
       c5Stage "embedding-upload" none]
    started := true
    shutdown_reason := none }

end LeetcodeDB

/-- Claim C5, counterexample: the claim says a failed job makes every
stage's worker pool stop, with no stage accepting new enqueues afterwards
and no deadlock.  Run the shutdown the way the source actually runs it —
inside the batch-polling stage's worker number 1 (any of the five
configured workers but the first): the reversed stop loop stops
embedding-upload, then aborts inside the batch-polling stage's own
`stop_workers` at the self-await with an uncaught RuntimeError, so
file-upload and batch-creation keep their running workers, `_started`
stays true, and the pipeline still accepts an enqueue. -/
theorem self_triggered_shutdown_aborts_counterexample :
    (LeetcodeDB.trigger_shutdown LeetcodeDB.c5Pipeline
        "Batch processing failed: batch_1" (some ("batch-polling", 1))).2.2 = true
      ∧ (LeetcodeDB.trigger_shutdown LeetcodeDB.c5Pipeline
          "Batch processing failed: batch_1" (some ("batch-polling", 1))).1.started
          = true
      ∧ ((LeetcodeDB.trigger_shutdown LeetcodeDB.c5Pipeline
          "Batch processing failed: batch_1" (some ("batch-polling", 1))).1.stages[0]?).map
            LeetcodeDB.StageRec.running = some true
      ∧ ((LeetcodeDB.trigger_shutdown LeetcodeDB.c5Pipeline
          "Batch processing failed: batch_1" (some ("batch-polling", 1))).1.stages[2]?).map
            LeetcodeDB.StageRec.running = some true
      ∧ ((LeetcodeDB.trigger_shutdown LeetcodeDB.c5Pipeline
          "Batch processing failed: batch_1" (some ("batch-polling", 1))).1.stages[4]?).map
            LeetcodeDB.StageRec.running = some false
      ∧ (LeetcodeDB.pipeline_enqueue
          (LeetcodeDB.trigger_shutdown LeetcodeDB.c5Pipeline
            "Batch processing failed: batch_1" (some ("batch-polling", 1))).1 ()).isOk
          = true := by
  refine ⟨?_, ?_, ?_, ?_, ?_, ?_⟩ <;> decide

/-- Claim C5, amended: a polled job reporting "failed" makes the polling
stage take the shutdown-and-drop action, which calls
`pipeline.trigger_shutdown` from inside one of that stage's own workers.
When the caller is external to every stage being stopped, or is the
stopping stage's first worker (where the pending self-cancellation masks
the self-await error), the cascading shutdown completes: every stage's
worker pool is stopped in reverse stage order, no running workers remain,
queued items stay in place, the started flag clears so a subsequent
enqueue raises, and the reason is recorded.  But when the caller is worker
`k ≠ 0` of a stage — as for four of the five configured batch-polling
workers — the stop loop aborts at that stage with an uncaught
RuntimeError after stopping only the stages that follow it: the stages
before it keep their running workers untouched, the pipeline remains
started, and it still accepts new enqueues. -/
theorem failed_job_triggers_cascading_shutdown {α : Type}
    (p : LeetcodeDB.PipelineRec α) (reason : String) (item : α)
    (jobID : String) (out : Option String)
    (caller : Option (String × Nat)) (pre post : List (LeetcodeDB.StageRec α))
    (cs : LeetcodeDB.StageRec α) (k : Nat) (h : p.started = true) :
    LeetcodeDB.batchPollStepAction jobID "failed" out
        = LeetcodeDB.PollAction.shutdownAndDrop
      ∧ ((caller = none ∨ ∃ nm, caller = some (nm, 0)) →
          (LeetcodeDB.trigger_shutdown p reason caller).2.1
              = (p.stages.map LeetcodeDB.StageRec.name).reverse
            ∧ (LeetcodeDB.trigger_shutdown p reason caller).2.2 = false
            ∧ (∀ s ∈ (LeetcodeDB.trigger_shutdown p reason caller).1.stages,
                s.running = false ∧ s.workers = 0)
            ∧ (LeetcodeDB.trigger_shutdown p reason caller).1.started = false
            ∧ (LeetcodeDB.trigger_shutdown p reason caller).1.stages.map
                LeetcodeDB.StageRec.queue = p.stages.map LeetcodeDB.StageRec.queue
            ∧ (LeetcodeDB.trigger_shutdown p reason caller).1.shutdown_reason
                = some reason
            ∧ ∃ msg, LeetcodeDB.pipeline_enqueue
                (LeetcodeDB.trigger_shutdown p reason caller).1 item
                = Except.error msg)
      ∧ (p.stages = pre ++ cs :: post → caller = some (cs.name, k) → k ≠ 0 →
          (∀ s ∈ post, s.name ≠ cs.name) →
          (LeetcodeDB.trigger_shutdown p reason caller).2.2 = true
            ∧ (LeetcodeDB.trigger_shutdown p reason caller).1.started = true
            ∧ (LeetcodeDB.trigger_shutdown p reason caller).1.stages
                = pre ++ { cs with running := false }
                    :: post.map LeetcodeDB.stopAllWorkers
            ∧ (LeetcodeDB.trigger_shutdown p reason caller).2.1
                = post.reverse.map LeetcodeDB.StageRec.name ++ [cs.name]
            ∧ (LeetcodeDB.trigger_shutdown p reason caller).1.shutdown_reason
                = some reason
            ∧ ∃ p3, LeetcodeDB.pipeline_enqueue
                (LeetcodeDB.trigger_shutdown p reason caller).1 item
                = Except.ok p3) := by
  refine ⟨rfl, ?_, ?_⟩
  · intro hben
    have key := LeetcodeDB.stopStagesRev_benign caller hben p.stages.reverse
    have hstg : (LeetcodeDB.trigger_shutdown p reason caller).1.stages
        = (p.stages.reverse.map LeetcodeDB.stopAllWorkers).reverse := by
      simp [LeetcodeDB.trigger_shutdown, LeetcodeDB.shutdown, h, key]
    have hstarted : (LeetcodeDB.trigger_shutdown p reason caller).1.started = false := by
      simp [LeetcodeDB.trigger_shutdown, LeetcodeDB.shutdown, h, key]
    refine ⟨?_, ?_, ?_, hstarted, ?_, ?_, ?_⟩
    · simp [LeetcodeDB.trigger_shutdown, LeetcodeDB.shutdown, h, key, List.map_reverse]
    · simp [LeetcodeDB.trigger_shutdown, LeetcodeDB.shutdown, h, key]
    · intro s hs
      rw [hstg] at hs
      obtain ⟨x, _, rfl⟩ := List.mem_map.mp (List.mem_reverse.mp hs)
      exact ⟨rfl, rfl⟩
    · rw [hstg]
      simp [List.map_reverse, List.map_map, Function.comp, LeetcodeDB.stopAllWorkers]
    · simp [LeetcodeDB.trigger_shutdown, LeetcodeDB.shutdown, h, key]
    · cases hst : (LeetcodeDB.trigger_shutdown p reason caller).1.stages with
      | nil =>
          refine ⟨"Cannot enqueue: pipeline has no stages", ?_⟩
          unfold LeetcodeDB.pipeline_enqueue
          rw [hst]
      | cons s0 rest =>
          refine ⟨"Cannot enqueue: pipeline not started. Call start() first.", ?_⟩
          unfold LeetcodeDB.pipeline_enqueue
          rw [hst]
          show (if (LeetcodeDB.trigger_shutdown p reason caller).1.started = true
                then _ else _)
              = (Except.error _ : Except String (LeetcodeDB.PipelineRec α))
          rw [if_neg (by rw [hstarted]; exact Bool.false_ne_true)]
  · intro hsplit hcaller hk hnames
    subst hcaller
    have hrev : p.stages.reverse = post.reverse ++ cs :: pre.reverse := by
      rw [hsplit]
      simp [List.reverse_append]
    have key : LeetcodeDB.stopStagesRev (some (cs.name, k)) p.stages.reverse
        = (post.reverse.map LeetcodeDB.stopAllWorkers
              ++ { cs with running := false } :: pre.reverse,
            post.reverse.map LeetcodeDB.StageRec.name ++ [cs.name], true) := by
      rw [hrev]
      exact LeetcodeDB.stopStagesRev_abort cs k hk post.reverse pre.reverse
        fun s hs => hnames s (List.mem_reverse.mp hs)
    have hstarted : (LeetcodeDB.trigger_shutdown p reason (some (cs.name, k))).1.started
        = true := by
      simp [LeetcodeDB.trigger_shutdown, LeetcodeDB.shutdown, h, key]
    have hstg : (LeetcodeDB.trigger_shutdown p reason (some (cs.name, k))).1.stages
        = pre ++ { cs with running := false } :: post.map LeetcodeDB.stopAllWorkers := by
      simp [LeetcodeDB.trigger_shutdown, LeetcodeDB.shutdown, h, key,
        List.reverse_append, List.map_reverse]
    refine ⟨?_, hstarted, hstg, ?_, ?_, ?_⟩
    · simp [LeetcodeDB.trigger_shutdown, LeetcodeDB.shutdown, h, key]
    · simp [LeetcodeDB.trigger_shutdown, LeetcodeDB.shutdown, h, key]
    · simp [LeetcodeDB.trigger_shutdown, LeetcodeDB.shutdown, h, key]
    · have hne : (LeetcodeDB.trigger_shutdown p reason (some (cs.name, k))).1.stages
          ≠ [] := by
        rw [hstg]
        simp
      exact LeetcodeDB.pipeline_enqueue_ok _ item hstarted hne

/-- Witness for `failed_job_triggers_cascading_shutdown`: on the concrete
five-stage pipeline, an externally triggered shutdown completes (started
cleared, enqueue refused), while a shutdown triggered from batch-polling
worker 1 leaves the pipeline started and still accepting enqueues. -/
theorem failed_job_triggers_cascading_shutdown_witness :
    (LeetcodeDB.trigger_shutdown LeetcodeDB.c5Pipeline
        "Batch processing failed: batch_1" none).1.started = false
      ∧ (∃ msg, LeetcodeDB.pipeline_enqueue
          (LeetcodeDB.trigger_shutdown LeetcodeDB.c5Pipeline
            "Batch processing failed: batch_1" none).1 ()
          = Except.error msg)
      ∧ (LeetcodeDB.trigger_shutdown LeetcodeDB.c5Pipeline
          "Batch processing failed: batch_1" (some ("batch-polling", 1))).1.started
          = true
      ∧ ∃ p3, LeetcodeDB.pipeline_enqueue
          (LeetcodeDB.trigger_shutdown LeetcodeDB.c5Pipeline
            "Batch processing failed: batch_1" (some ("batch-polling", 1))).1 ()
          = Except.ok p3 := by
  obtain ⟨-, hbenign, -⟩ :=
    failed_job_triggers_cascading_shutdown LeetcodeDB.c5Pipeline
      "Batch processing failed: batch_1" () "batch_1" none none
      [LeetcodeDB.c5Stage "file-upload" (some "file-polling"),
       LeetcodeDB.c5Stage "file-polling" (some "batch-creation"),
       LeetcodeDB.c5Stage "batch-creation" (some "batch-polling")]
      [LeetcodeDB.c5Stage "embedding-upload" none]
      (LeetcodeDB.c5Stage "batch-polling" (some "embedding-upload")) 1 rfl
  obtain ⟨-, -, habort⟩ :=
    failed_job_triggers_cascading_shutdown LeetcodeDB.c5Pipeline
      "Batch processing failed: batch_1" () "batch_1" none
      (some ("batch-polling", 1))
      [LeetcodeDB.c5Stage "file-upload" (some "file-polling"),
       LeetcodeDB.c5Stage "file-polling" (some "batch-creation"),
       LeetcodeDB.c5Stage "batch-creation" (some "batch-polling")]
      [LeetcodeDB.c5Stage "embedding-upload" none]
      (LeetcodeDB.c5Stage "batch-polling" (some "embedding-upload")) 1 rfl
  obtain ⟨-, -, -, hstarted, -, -, henq⟩ := hbenign (Or.inl rfl)
  obtain ⟨-, hstarted2, -, -, -, henq2⟩ := habort rfl rfl (by decide) (by decide)
  exact ⟨hstarted, henq, hstarted2, henq2⟩

namespace LeetcodeDB

/-! ## Summarize retry coordinator (claims C3 and C8) -/

/-- A document of the summarize `batch_metadata` collection as read and
written by `retry_failed_batches.py`.  `mid` models the Mongo `_id`;
`batch_id` and `openai_file_id` are `Option` because the source reads them
with `.get(...)` and skips falsy values. -/
structure SumBatchDoc where
  mid : Nat
  batch_id : Option String
  openai_file_id : Option String
  qids : List Nat
  status : String
  superseded_by : Option String
  processed : Bool
  combined_batch : Bool
  combined_from : List (Option String)
  combined_from_file_ids : List (Option String)
deriving DecidableEq, Repr

/-- Embedding of `get_failed_batches` (retry_failed_batches.py lines
210-222): all documents with status "failed", in collection order. -/
def get_failed_batches (store : List SumBatchDoc) : List SumBatchDoc :=
  store.filter fun d => d.status == "failed"

/-- The grouping loop of `retry_failed_batches` (retry_failed_batches.py
lines 380-390): accumulate documents into `current_group`, flushing a group
whenever it reaches size 4 (`GROUP_SIZE`) or the last document has been
consumed. -/
def groupFailedAux (cur : List SumBatchDoc) :
    List SumBatchDoc → List (List SumBatchDoc)
  | [] => []
  | d :: rest =>
      let cur2 := cur ++ [d]
      if cur2.length == 4 || rest.isEmpty then cur2 :: groupFailedAux [] rest
      else groupFailedAux cur2 rest

/-- The groups formed from the failed-batch list, in discovery order. -/
def groupFailed (docs : List SumBatchDoc) : List (List SumBatchDoc) :=
  groupFailedAux [] docs

/-- Embedding of `combine_input_files_to_nano` (retry_failed_batches.py
lines 73-107).  `rewriteFn` is the effect of
`rewrite_input_file_to_nano`: given a member's input-file id it returns the
rewritten JSONL content, or `none` when the download/rewrite fails (that
member is skipped).  Members with no `openai_file_id` are skipped as well.
Returns `none` when no member's payload is recoverable, else the collected
contents joined with a newline. -/
def combine_input_files_to_nano (rewriteFn : String → Option String)
    (batch_group : List SumBatchDoc) : Option String :=
  let jsonl_contents := batch_group.filterMap fun d =>
    match d.openai_file_id with
    | none => none
    | some fid => rewriteFn fid
  if jsonl_contents.isEmpty then none
  else some (String.intercalate "\n" jsonl_contents)

/-- Step 4 of `create_combined_retry_batch` (retry_failed_batches.py lines
187-204): every group member that has a `batch_id` (the source skips falsy
ones with `continue`) is updated by `_id` to status "superseded" with
`superseded_by` pointing at the new batch — with no regard to whether that
member's payload made it into the combined submission. -/
def markGroupSuperseded (store : List SumBatchDoc) (group : List SumBatchDoc)
    (new_batch_id : String) : List SumBatchDoc :=
  store.map fun d =>
    if group.any fun g => g.batch_id.isSome && g.mid == d.mid then
      { d with status := "superseded", superseded_by := some new_batch_id }
    else d

/-- The `new_metadata` document inserted by step 3 of
`create_combined_retry_batch` (retry_failed_batches.py lines 165-181):
status "validating", `combined_batch` set, lineage lists from the whole
group, and `qids` the plain concatenation (`all_qids`, line 128) of every
member's `qids` — skipped members included, with no deduplication. -/
def combinedNewDoc (new_batch_id new_file_id : String) (freshMid : Nat)
    (batch_group : List SumBatchDoc) : SumBatchDoc :=
  { mid := freshMid
    batch_id := some new_batch_id
    openai_file_id := some new_file_id
    qids := (batch_group.map SumBatchDoc.qids).flatten
    status := "validating"
    superseded_by := none
    processed := false
    combined_batch := true
    combined_from := batch_group.map SumBatchDoc.batch_id
    combined_from_file_ids := batch_group.map SumBatchDoc.openai_file_id }

/-- Embedding of `create_combined_retry_batch` (retry_failed_batches.py
lines 110-207).  `rewriteFn`, `upload` and `create` are the effects of
`rewrite_input_file_to_nano`, `upload_batch_file` and the remote
`batches.create` (`none` models failure/raising; the source logs and
returns `None` in each of those cases).  `freshMid` is the `_id` Mongo
assigns to the inserted document.  On success the new document is inserted
and then every member holding a `batch_id` is marked superseded; the pair
returned is the store after these writes and the new batch id. -/
def create_combined_retry_batch (rewriteFn upload create : String → Option String)
    (freshMid : Nat) (store : List SumBatchDoc) (batch_group : List SumBatchDoc) :
    List SumBatchDoc × Option String :=
  if batch_group.isEmpty then (store, none)
  else
    match combine_input_files_to_nano rewriteFn batch_group with
    | none => (store, none)
    | some combined =>
        match upload combined with
        | none => (store, none)
        | some new_file_id =>
            match create new_file_id with
            | none => (store, none)
            | some new_batch_id =>
                (markGroupSuperseded
                  (store ++ [combinedNewDoc new_batch_id new_file_id freshMid batch_group])
                  batch_group new_batch_id,
                  some new_batch_id)

end LeetcodeDB

namespace LeetcodeDB

/-- C8 group member whose payload cannot be recovered (its rewrite fails). -/
def c8DocA : SumBatchDoc :=
  { mid := 1, batch_id := some "ba", openai_file_id := some "fa", qids := [10, 11],
    status := "failed", superseded_by := none, processed := false,
    combined_batch := false, combined_from := [], combined_from_file_ids := [] }

/-- C8 group member whose payload is recoverable. -/
def c8DocB : SumBatchDoc :=
  { mid := 2, batch_id := some "bb", openai_file_id := some "fb", qids := [20],
    status := "failed", superseded_by := none, processed := false,
    combined_batch := false, combined_from := [], combined_from_file_ids := [] }

/-- C8 rewrite effect: download/rewrite succeeds only for file "fb". -/
def c8Rewrite : String → Option String :=
  fun fid => if fid == "fb" then some "payload_b" else none

/-- C8 upload effect: always succeeds. -/
def c8Upload : String → Option String := fun _ => some "file_new"

/-- C8 batch-creation effect: always succeeds. -/
def c8Create : String → Option String := fun _ => some "batch_new"

/-- C8 rewrite effect for the all-unrecoverable case: every rewrite fails. -/
def c8RewriteNone : String → Option String := fun _ => none

end LeetcodeDB

/-- Claim C8 (code bug): run `create_combined_retry_batch` on the group
[A, B] where A's original input cannot be downloaded/rewritten and B's can.
A's payload is indeed excluded from the combined submission (the combined
JSONL is B's content alone) and the group proceeds; when no member is
recoverable the group is abandoned with no new job — those parts match the
claim.  But the skipped member A does NOT keep status "failed": step 4 of
the source marks every group member superseded, so A ends with status
"superseded" and `superseded_by = "batch_new"` although the new job does
not contain its payload (while A's qids are nevertheless included in the
new job's qids list), contradicting the claim and the spec's
retry-input-failure policy. -/
theorem skipped_member_still_marked_superseded :
    LeetcodeDB.combine_input_files_to_nano LeetcodeDB.c8Rewrite
        [LeetcodeDB.c8DocA, LeetcodeDB.c8DocB] = some "payload_b"
      ∧ (LeetcodeDB.create_combined_retry_batch LeetcodeDB.c8Rewrite
          LeetcodeDB.c8Upload LeetcodeDB.c8Create 3
          [LeetcodeDB.c8DocA, LeetcodeDB.c8DocB]
          [LeetcodeDB.c8DocA, LeetcodeDB.c8DocB]).2 = some "batch_new"
      ∧ ((LeetcodeDB.create_combined_retry_batch LeetcodeDB.c8Rewrite
          LeetcodeDB.c8Upload LeetcodeDB.c8Create 3
          [LeetcodeDB.c8DocA, LeetcodeDB.c8DocB]
          [LeetcodeDB.c8DocA, LeetcodeDB.c8DocB]).1[0]?).map
            LeetcodeDB.SumBatchDoc.status = some "superseded"
      ∧ ((LeetcodeDB.create_combined_retry_batch LeetcodeDB.c8Rewrite
          LeetcodeDB.c8Upload LeetcodeDB.c8Create 3
          [LeetcodeDB.c8DocA, LeetcodeDB.c8DocB]
          [LeetcodeDB.c8DocA, LeetcodeDB.c8DocB]).1[0]?).map
            LeetcodeDB.SumBatchDoc.superseded_by = some (some "batch_new")
      ∧ ((LeetcodeDB.create_combined_retry_batch LeetcodeDB.c8Rewrite
          LeetcodeDB.c8Upload LeetcodeDB.c8Create 3
          [LeetcodeDB.c8DocA, LeetcodeDB.c8DocB]
          [LeetcodeDB.c8DocA, LeetcodeDB.c8DocB]).1[2]?).map
            LeetcodeDB.SumBatchDoc.qids = some [10, 11, 20]
      ∧ LeetcodeDB.create_combined_retry_batch LeetcodeDB.c8RewriteNone
          LeetcodeDB.c8Upload LeetcodeDB.c8Create 3
          [LeetcodeDB.c8DocA, LeetcodeDB.c8DocB]
          [LeetcodeDB.c8DocA, LeetcodeDB.c8DocB]
          = ([LeetcodeDB.c8DocA, LeetcodeDB.c8DocB], none) := by
  refine ⟨?_, ?_, ?_, ?_, ?_, ?_⟩ <;> decide

namespace LeetcodeDB

/-- Any document of the store after `markGroupSuperseded` whose `_id`
matches a group member holding a `batch_id` carries status "superseded" and
points at the new batch. -/
theorem markGroupSuperseded_marks (store group : List SumBatchDoc) (nb : String)
    (e : SumBatchDoc) (he : e ∈ markGroupSuperseded store group nb)
    (d : SumBatchDoc) (hd : d ∈ group) (hds : d.batch_id.isSome = true)
    (hmid : e.mid = d.mid) :
    e.status = "superseded" ∧ e.superseded_by = some nb := by
  unfold markGroupSuperseded at he
  obtain ⟨x, hxmem, he2⟩ := List.mem_map.mp he
  have hxmid : e.mid = x.mid := by
    rw [← he2]
    split <;> rfl
  have hcond : (group.any fun g => g.batch_id.isSome && g.mid == x.mid) = true := by
    refine List.any_eq_true.mpr ⟨d, hd, ?_⟩
    rw [Bool.and_eq_true]
    refine ⟨hds, ?_⟩
    rw [beq_iff_eq, ← hmid, hxmid]
  rw [← he2, if_pos hcond]
  exact ⟨rfl, rfl⟩

/-- The superseding pass keeps every stored document in the store, with its
`mid`, `batch_id`, `qids` and `combined_from` untouched. -/
theorem markGroupSuperseded_mem_image (store group : List SumBatchDoc) (nb : String)
    (x : SumBatchDoc) (hx : x ∈ store) :
    ∃ e ∈ markGroupSuperseded store group nb,
      e.mid = x.mid ∧ e.batch_id = x.batch_id ∧ e.qids = x.qids
        ∧ e.combined_from = x.combined_from := by
  unfold markGroupSuperseded
  refine ⟨_, List.mem_map_of_mem _ hx, ?_⟩
  split <;> exact ⟨rfl, rfl, rfl, rfl⟩

end LeetcodeDB

/-- Claim C3: with exactly 9 failed jobs the grouping loop forms exactly 3
groups of sizes 4, 4 and 1, preserving discovery order (their concatenation
is the original list); whenever `create_combined_retry_batch` succeeds on a
group, every member holding a job id ends superseded with `supersededBy`
the new job's id, the created document's fragment list is the concatenation
of the members' lists and its `combined_from` records the group; and under
the data model's invariants (each member's refs duplicate-free, members
pairwise disjoint) that concatenation is exactly the union of the members'
fragment references with no duplicates. -/
theorem retry_groups_nine_failed_jobs :
    (∀ failed : List LeetcodeDB.SumBatchDoc, failed.length = 9 →
        (LeetcodeDB.groupFailed failed).map List.length = [4, 4, 1]
          ∧ (LeetcodeDB.groupFailed failed).flatten = failed)
      ∧ (∀ (rewriteFn upload create : String → Option String) (freshMid : Nat)
            (store group st2 : List LeetcodeDB.SumBatchDoc) (nb : String),
          LeetcodeDB.create_combined_retry_batch rewriteFn upload create freshMid
              store group = (st2, some nb) →
            (∀ d ∈ group, d.batch_id.isSome = true →
                ∀ e ∈ st2, e.mid = d.mid →
                  e.status = "superseded" ∧ e.superseded_by = some nb)
              ∧ (∃ newDoc ∈ st2, newDoc.batch_id = some nb
                  ∧ newDoc.qids = (group.map LeetcodeDB.SumBatchDoc.qids).flatten
                  ∧ newDoc.combined_from
                      = group.map LeetcodeDB.SumBatchDoc.batch_id)
              ∧ (List.Pairwise (fun a b => a.qids.Disjoint b.qids) group →
                  (∀ d ∈ group, d.qids.Nodup) →
                  (group.map LeetcodeDB.SumBatchDoc.qids).flatten.Nodup
                    ∧ ∀ q, q ∈ (group.map LeetcodeDB.SumBatchDoc.qids).flatten
                        ↔ ∃ d ∈ group, q ∈ d.qids)) := by
  constructor
  · intro failed h
    rcases failed with _ | ⟨a1, f1⟩
    · simp at h
    rcases f1 with _ | ⟨a2, f2⟩
    · simp at h
    rcases f2 with _ | ⟨a3, f3⟩
    · simp at h
    rcases f3 with _ | ⟨a4, f4⟩
    · simp at h
    rcases f4 with _ | ⟨a5, f5⟩
    · simp at h
    rcases f5 with _ | ⟨a6, f6⟩
    · simp at h
    rcases f6 with _ | ⟨a7, f7⟩
    · simp at h
    rcases f7 with _ | ⟨a8, f8⟩
    · simp at h
    rcases f8 with _ | ⟨a9, tail⟩
    · simp at h
    have htail : tail = [] := by
      have h0 : tail.length = 0 := by
        simp only [List.length_cons] at h
        omega
      exact List.eq_nil_of_length_eq_zero h0
    subst htail
    exact ⟨rfl, rfl⟩
  · intro rewriteFn upload create freshMid store group st2 nb hcc
    unfold LeetcodeDB.create_combined_retry_batch at hcc
    by_cases hg : group.isEmpty
    · rw [if_pos hg] at hcc
      simp at hcc
    have hshape : ∃ nf, st2 = LeetcodeDB.markGroupSuperseded
        (store ++ [LeetcodeDB.combinedNewDoc nb nf freshMid group]) group nb := by
      rw [if_neg hg] at hcc
      split at hcc
      · simp at hcc
      split at hcc
      · simp at hcc
      split at hcc
      · simp at hcc
      rw [Prod.mk.injEq] at hcc
      obtain ⟨hst, hnb⟩ := hcc
      have hnb2 := Option.some.inj hnb
      subst hnb2
      exact ⟨_, hst.symm⟩
    obtain ⟨nf, hst2⟩ := hshape
    subst hst2
    refine ⟨?_, ?_, ?_⟩
    · intro d hd hds e he hemid
      exact LeetcodeDB.markGroupSuperseded_marks _ group nb e he d hd hds hemid
    · obtain ⟨e, hemem, _, hebid, heqids, hecf⟩ :=
        LeetcodeDB.markGroupSuperseded_mem_image
          (store ++ [LeetcodeDB.combinedNewDoc nb nf freshMid group]) group nb
          (LeetcodeDB.combinedNewDoc nb nf freshMid group)
          (List.mem_append_right store (List.mem_singleton_self _))
      exact ⟨e, hemem, by rw [hebid]; rfl, by rw [heqids]; rfl, by rw [hecf]; rfl⟩
    · intro hdisj hnd
      constructor
      · rw [List.nodup_flatten]
        constructor
        · intro s hs
          obtain ⟨d, hd, rfl⟩ := List.mem_map.mp hs
          exact hnd d hd
        · exact List.pairwise_map.mpr hdisj
      · intro q
        rw [List.mem_flatten]
        constructor
        · rintro ⟨s, hs, hqs⟩
          obtain ⟨d, hd, rfl⟩ := List.mem_map.mp hs
          exact ⟨d, hd, hqs⟩
        · rintro ⟨d, hd, hq⟩
          exact ⟨d.qids, List.mem_map_of_mem _ hd, hq⟩

namespace LeetcodeDB

/-- Concrete failed batch document number `i` for the C3 witness. -/
def c3Doc (i : Nat) : SumBatchDoc :=
  { mid := i, batch_id := some ("b" ++ toString i),
    openai_file_id := some ("f" ++ toString i), qids := [i], status := "failed",
    superseded_by := none, processed := false, combined_batch := false,
    combined_from := [], combined_from_file_ids := [] }

/-- Nine failed batch documents in discovery order. -/
def c3Nine : List SumBatchDoc :=
  [c3Doc 1, c3Doc 2, c3Doc 3, c3Doc 4, c3Doc 5, c3Doc 6, c3Doc 7, c3Doc 8, c3Doc 9]

/-- The first group of four formed from `c3Nine`. -/
def c3G1 : List SumBatchDoc := [c3Doc 1, c3Doc 2, c3Doc 3, c3Doc 4]

/-- C3 witness rewrite effect: every member's payload is recoverable. -/
def c3Rewrite : String → Option String := fun fid => some ("rw:" ++ fid)

/-- C3 witness upload effect. -/
def c3Upload : String → Option String := fun _ => some "file_new9"

/-- C3 witness batch-creation effect. -/
def c3Create : String → Option String := fun _ => some "batch_new9"

/-- The first group member after being superseded by the C3 witness run. -/
def c3Doc1Sup : SumBatchDoc :=
  { c3Doc 1 with status := "superseded", superseded_by := some "batch_new9" }

end LeetcodeDB

/-- Witness for `retry_groups_nine_failed_jobs`: nine concrete failed jobs
group as 4/4/1, and running the combined retry on the first group marks its
first member superseded by the new job. -/
theorem retry_groups_nine_failed_jobs_witness :
    (LeetcodeDB.groupFailed LeetcodeDB.c3Nine).map List.length = [4, 4, 1]
      ∧ LeetcodeDB.c3Doc1Sup.status = "superseded"
      ∧ LeetcodeDB.c3Doc1Sup.superseded_by = some "batch_new9" := by
  refine ⟨(retry_groups_nine_failed_jobs.1 LeetcodeDB.c3Nine (by decide)).1, ?_⟩
  exact (retry_groups_nine_failed_jobs.2 LeetcodeDB.c3Rewrite LeetcodeDB.c3Upload
      LeetcodeDB.c3Create 100 LeetcodeDB.c3G1 LeetcodeDB.c3G1
      (LeetcodeDB.create_combined_retry_batch LeetcodeDB.c3Rewrite LeetcodeDB.c3Upload
        LeetcodeDB.c3Create 100 LeetcodeDB.c3G1 LeetcodeDB.c3G1).1
      "batch_new9" (by decide)).1
    (LeetcodeDB.c3Doc 1) (by decide) (by decide)
    LeetcodeDB.c3Doc1Sup (by decide) (by decide)
